import Mathlib

/-!
# Verification of the EV-dashboard data-transformation pipeline

Shallow embedding of the data pipeline of `src/App.jsx` (together with the
CSV-loading hook that feeds it): cleaning of raw CSV rows into records,
filtering by a year/state selection, and the derived aggregates
(yearly counts, top states, KPIs) and dropdown option lists.

Modelling conventions:
* JavaScript numbers are modelled as rationals (`ℚ`); `NaN` is modelled as
  `none` in the `Option ℚ` result of numeric conversion (`jsNumber`), since
  every conversion site in the source immediately guards the `NaN` case
  with `|| default` or strict equality (which `NaN` never satisfies).
* A raw CSV row (after the parser's `dynamicTyping`) is a total map from
  column name to a dynamically-typed cell value `JSVal` (string, number,
  `null` for an empty cell, `undefined` for a missing column; the parser's
  boolean conversion of literal `true`/`false` cells is not modelled).
* JS plain objects used as counters are modelled as insertion-ordered
  association lists; `Object.entries` enumeration (array-index-like keys
  first, in ascending numeric order, then the remaining keys in insertion
  order, per ECMA-262 OrdinaryOwnPropertyKeys) is `jsEntries`.
* `Array.prototype.sort` (stable since ES2019) is modelled by the stable
  insertion sort `sortLe`.
-/

/-- A dynamically-typed CSV cell value as produced by the CSV parser with
`dynamicTyping` enabled: a string, a number, `null` (empty cell) or
`undefined` (column absent from the row object). -/
inductive JSVal where
  | str (s : String)
  | num (q : ℚ)
  | nullV
  | undefV
deriving DecidableEq

/-- A raw CSV row: column name to cell value (missing columns map to
`undefV`). -/
abbrev RawRow := String → JSVal

/-- JavaScript truthiness of a cell value: empty string, `0`, `null` and
`undefined` are falsy. -/
def truthy : JSVal → Bool
  | .str s => s != ""
  | .num q => q != 0
  | .nullV => false
  | .undefV => false

/-- Numeric value of a list of decimal digit characters. -/
def digitsVal (cs : List Char) : ℕ :=
  cs.foldl (fun n c => 10 * n + (c.toNat - 48)) 0

/-- White space for the purpose of `Number(string)` trimming (the common
ASCII white-space characters; JS also trims rarer Unicode spaces). -/
def isWs (c : Char) : Bool := c == ' ' || c == '\t' || c == '\n' || c == '\r'

/-- Trim leading and trailing white space. -/
def trimChars (cs : List Char) : List Char :=
  ((cs.dropWhile isWs).reverse.dropWhile isWs).reverse

/-- Parse an unsigned decimal literal: digits with an optional fractional
part (`"123"`, `"123."`, `"123.45"`, `".45"`). `none` models `NaN`. -/
def parseUnsigned (cs : List Char) : Option ℚ :=
  match cs.span Char.isDigit with
  | (ds, []) => if ds.isEmpty then none else some (digitsVal ds)
  | (ds, '.' :: fs) =>
      if fs.all Char.isDigit && !(ds.isEmpty && fs.isEmpty) then
        some ((digitsVal ds : ℚ) + (digitsVal fs : ℚ) / (10 : ℚ) ^ fs.length)
      else none
  | _ => none

/-- JavaScript `Number(string)`: whitespace-trimmed; the empty string
converts to `0`; otherwise an optionally signed decimal literal. (`none`
models `NaN`. Exponent, hexadecimal and `Infinity` forms are not
modelled; every theorem below is parametric in this conversion except the
concrete counterexamples, which use plain decimal inputs.) -/
def jsStringToNumber (s : String) : Option ℚ :=
  match trimChars s.data with
  | [] => some 0
  | '+' :: cs => parseUnsigned cs
  | '-' :: cs => (parseUnsigned cs).map (fun q => -q)
  | cs => parseUnsigned cs

/-- JavaScript `Number(v)` on a cell value (`Number(null) = 0`,
`Number(undefined) = NaN`). -/
def jsNumber : JSVal → Option ℚ
  | .num q => some q
  | .str s => jsStringToNumber s
  | .nullV => some 0
  | .undefV => none

/-- JavaScript `x || d` where `x` is a numeric-conversion result (`NaN`
and `0` are falsy) and `d` a numeric default. -/
def jsNumOr (x : Option ℚ) (d : ℚ) : ℚ :=
  match x with
  | none => d
  | some q => if q = 0 then d else q

/-- JavaScript `x || null` where `x` is a numeric-conversion result:
`NaN` and `0` become `null` (`none`). -/
def jsNumOrNull (x : Option ℚ) : Option ℚ :=
  match x with
  | none => none
  | some q => if q = 0 then none else some q

/-- JavaScript `v || d` on cell values. -/
def jsOr (v d : JSVal) : JSVal := if truthy v then v else d

/-- JavaScript `ToString` of a cell value, as used when a value becomes a
plain-object property key or is compared by the default `sort()`.
Faithful on strings, integer numbers, `null` and `undefined`; a
non-integral number is rendered `"num/den"`, which (like the real JS
decimal rendering, e.g. `"2020.5"`) is never an array-index key. -/
def toKey : JSVal → String
  | .str s => s
  | .num q => if q.den = 1 then toString q.num
              else toString q.num ++ "/" ++ toString q.den
  | .nullV => "null"
  | .undefV => "undefined"

/-- The cleaned, typed unit of analysis (`data` element, App.jsx 19–26). -/
structure Record where
  year : Option ℚ
  state : JSVal
  make : JSVal
  model : JSVal
  vehicle_type : JSVal
  battery_capacity_kwh : ℚ
deriving DecidableEq

/-- One step of the cleaning pass (App.jsx 19–25): field extraction with
defaults. `year := Number(r["Model Year"]) || null`, string fields default
via `||`, `battery_capacity_kwh := Number(r["Electric Range"]) || 0`. -/
def toRecord (r : RawRow) : Record where
  year := jsNumOrNull (jsNumber (r "Model Year"))
  state := jsOr (r "State") (.str "Unknown")
  make := jsOr (r "Make") (.str "Unknown")
  model := jsOr (r "Model") (.str "Unknown")
  vehicle_type := jsOr (r "Electric Vehicle Type") (.str "Other")
  battery_capacity_kwh := jsNumOr (jsNumber (r "Electric Range")) 0

/-- JS truthiness of the cleaned `year` field (a number-or-null). -/
def truthyYear : Option ℚ → Bool
  | none => false
  | some q => q != 0

/-- The cleaning pass (`data`, App.jsx 17–27): map rows to records, keep
those with a truthy `year`. (The `if (!raw) return []` guard concerns the
not-yet-loaded React state and is outside the pipeline proper.) -/
def data (raw : List RawRow) : List Record :=
  (raw.map toRecord).filter (fun r => truthyYear r.year)

/-- The active filter selection (`filters`, App.jsx 14); both components
are strings coming from the dropdowns, `"All"` being the sentinel. -/
structure Filters where
  year : String
  state : String
deriving DecidableEq

/-- JavaScript strict equality `d.year === Number(filters.year)`: the left
side is a number-or-null, the right a conversion result; `null` and `NaN`
are equal to nothing. -/
def yearMatches (y n : Option ℚ) : Bool :=
  match y, n with
  | some a, some b => a == b
  | _, _ => false

/-- The filter predicate (App.jsx 31–34). -/
def matchesFilters (filters : Filters) (d : Record) : Bool :=
  (filters.year == "All" || yearMatches d.year (jsStringToNumber filters.year)) &&
  (filters.state == "All" || d.state == JSVal.str filters.state)

/-- `filteredData` (App.jsx 30–35). -/
def filteredData (d : List Record) (filters : Filters) : List Record :=
  d.filter (matchesFilters filters)

/-- `filteredData.reduce((s,d) => s + d.battery_capacity_kwh, 0)`. -/
def sumRange (fd : List Record) : ℚ :=
  fd.foldl (fun s d => s + d.battery_capacity_kwh) 0

/-- JavaScript `Math.round`: round half toward positive infinity. -/
def jsRound (x : ℚ) : ℤ := ⌊x + 1 / 2⌋

/-- Rounding to two decimal places, `Math.round(x * 100) / 100`. -/
def roundTo2 (x : ℚ) : ℚ := ((jsRound (x * 100) : ℚ)) / 100

/-- `avgBattery` (App.jsx 40):
`Math.round((sum / Math.max(1, length)) * 100) / 100`. -/
def avgBattery (fd : List Record) : ℚ :=
  ((jsRound ((sumRange fd / ((max 1 fd.length : ℕ) : ℚ)) * 100) : ℚ)) / 100

/-- One `map[k] = (map[k] || 0) + 1` step on the insertion-ordered view of
a JS plain object: increment an existing key in place, or append a new
key with count 1. -/
def bump [DecidableEq κ] (k : κ) : List (κ × ℕ) → List (κ × ℕ)
  | [] => [(k, 1)]
  | e :: m => if e.1 = k then (e.1, e.2 + 1) :: m else e :: bump k m

/-- The grouping pass `forEach(d => { map[key] = (map[key] || 0) + 1 })`:
an insertion-ordered counter. -/
def groupCount [DecidableEq κ] (ks : List κ) : List (κ × ℕ) :=
  ks.foldl (fun m k => bump k m) []

/-- Insert `x` into `l` before the first element of key `≥ key x`
(so equal keys keep earlier-inserted elements first). -/
def insertLe [LinearOrder β] (key : α → β) (x : α) : List α → List α
  | [] => [x]
  | y :: l => if key x ≤ key y then x :: y :: l else y :: insertLe key x l

/-- Stable insertion sort, ascending by `key`: models the stable
`Array.prototype.sort` with comparator `(a, b) => key a - key b`. -/
def sortLe [LinearOrder β] (key : α → β) : List α → List α
  | [] => []
  | x :: l => insertLe key x (sortLe key l)

/-- `Object.entries` enumeration order (ECMA-262 OrdinaryOwnPropertyKeys):
array-index-like keys first, in ascending numeric order, then the
remaining keys in insertion order. `isIdx` classifies a key as
array-index-like and `idxVal` gives its numeric value. -/
def jsEntries (isIdx : κ → Bool) (idxVal : κ → ℚ) (m : List (κ × ℕ)) :
    List (κ × ℕ) :=
  sortLe (fun e => idxVal e.1) (m.filter (fun e => isIdx e.1)) ++
    m.filter (fun e => !isIdx e.1)

/-- Whether a property-key string is an array index (ECMA-262): canonical
decimal digits, no leading zero, value below `2^32 - 1`. -/
def isArrayIndexKey (s : String) : Bool :=
  !s.data.isEmpty && s.data.all Char.isDigit &&
    (s == "0" || s.data.head? != some '0') &&
    digitsVal s.data < 4294967295

/-- Numeric value of an array-index key string. -/
def stateKeyVal (s : String) : ℚ := (digitsVal s.data : ℚ)

/-- Classification of a `year` group key as array-index-like: a year `q`
gets property key `ToString q`, which is an array index exactly when `q`
is a non-negative integer below `2^32 - 1` (`null` keys to `"null"`,
never an index). -/
def isYearIdxKey : Option ℚ → Bool
  | none => false
  | some q => q.den == 1 && decide (0 ≤ q.num) && decide (q.num < 4294967295)

/-- Sort key for `(a, b) => a.year - b.year`: a `null` year coerces to 0
in JS subtraction. (A `NaN`-valued comparison is treated as equality by
the JS sort; this point is moot because every record reaching the sort
carries a non-null year.) -/
def yearKey : Option ℚ → ℚ := fun o => o.getD 0

/-- One `yearly` chart entry `{year, count}` (App.jsx 46). The `year`
field is `Number(key)` of the object key; numbers round-trip exactly
through `ToString`/`Number` (shortest-representation printing), so the
embedding keeps the numeric key; a `null` year keys to `"null"`, whose
`Number` conversion is `NaN` (`none`). -/
structure YearCount where
  year : Option ℚ
  count : ℕ
deriving DecidableEq

/-- The `yearly` grouping object, enumerated in `Object.entries` order. -/
def yearEntries (fd : List Record) : List YearCount :=
  (jsEntries isYearIdxKey yearKey (groupCount (fd.map Record.year))).map
    (fun e => ⟨e.1, e.2⟩)

/-- `yearly` (App.jsx 43–47): group the filtered records by year, then
sort ascending by year. The group keys are pairwise distinct, so the
final sorted list does not depend on the enumeration order of the
grouping object; `jsEntries` nevertheless models it faithfully. -/
def yearly (fd : List Record) : List YearCount :=
  sortLe (fun e => yearKey e.year) (yearEntries fd)

/-- One `topStates` entry `{state, count}` (App.jsx 53); the state is the
object key string. -/
structure StateCount where
  state : String
  count : ℕ
deriving DecidableEq

/-- The `topStates` grouping object, enumerated in `Object.entries`
order. -/
def stateEntries (fd : List Record) : List StateCount :=
  (jsEntries isArrayIndexKey stateKeyVal
      (groupCount (fd.map (fun d => toKey d.state)))).map (fun e => ⟨e.1, e.2⟩)

/-- Sort key for the comparator `(a, b) => b.count - a.count`: descending
by count. -/
def negCount (e : StateCount) : ℤ := -(e.count : ℤ)

/-- `topStates` (App.jsx 50–54): group by state, sort descending by
count (stably), take the first 10. -/
def topStates (fd : List Record) : List StateCount :=
  (sortLe negCount (stateEntries fd)).take 10

/-- First-occurrence deduplication with an accumulator of already-seen
elements. -/
def dedupFirstAux [DecidableEq α] (seen : List α) : List α → List α
  | [] => []
  | x :: l => if x ∈ seen then dedupFirstAux seen l
              else x :: dedupFirstAux (x :: seen) l

/-- JS `Array.from(new Set(...))`: distinct elements in first-occurrence
order. -/
def dedupFirst [DecidableEq α] (l : List α) : List α := dedupFirstAux [] l

/-- The `years` dropdown options (App.jsx 67): `"All"` then the distinct
cleaned years ascending (`sort((a,b) => a-b)`; `null` coerces to 0 in the
comparator). -/
def years (d : List Record) : List JSVal :=
  JSVal.str "All" ::
    (sortLe (fun o => o.getD 0) (dedupFirst (d.map Record.year))).map
      (fun o => match o with | some q => JSVal.num q | none => JSVal.nullV)

/-- The `states` dropdown options (App.jsx 68): `"All"` then the distinct
cleaned states sorted by the default comparator (lexicographic on the
string conversion). -/
def states (d : List Record) : List JSVal :=
  JSVal.str "All" :: sortLe toKey (dedupFirst (d.map Record.state))

/-- The outputs of one render of the app that the option-derivation claims
are about: the filtered record list (which depends on the selection) and
the two dropdown option lists. -/
structure AppView where
  filtered : List Record
  yearsOpts : List JSVal
  statesOpts : List JSVal
deriving DecidableEq

/-- One run of the pipeline over raw rows and a filter selection. -/
def appView (raw : List RawRow) (filters : Filters) : AppView :=
  { filtered := filteredData (data raw) filters
    yearsOpts := years (data raw)
    statesOpts := states (data raw) }

example : jsStringToNumber "2020" = some 2020 := by decide
example : jsStringToNumber "" = some 0 := by decide
example : jsStringToNumber "bad" = none := by decide
example : jsStringToNumber "-5" = some (-5) := by decide
example : toKey (.num 42) = "42" := by decide
example : isArrayIndexKey "42" = true := by decide
example : isArrayIndexKey "WA" = false := by decide

section SortLemmas

variable {α : Type _} {β : Type _} [LinearOrder β] (key : α → β)

theorem insertLe_perm (x : α) (l : List α) :
    List.Perm (insertLe key x l) (x :: l) := by
  induction l with
  | nil => simp [insertLe]
  | cons y l ih =>
      by_cases h : key x ≤ key y
      · simp [insertLe, h]
      · rw [insertLe, if_neg h]
        exact ((ih.cons y).trans (List.Perm.swap x y l))

theorem sortLe_perm (l : List α) : List.Perm (sortLe key l) l := by
  induction l with
  | nil => simp [sortLe]
  | cons x l ih =>
      exact (insertLe_perm key x (sortLe key l)).trans (ih.cons x)

theorem insertLe_pairwise (x : α) (l : List α)
    (h : l.Pairwise (fun a b => key a ≤ key b)) :
    (insertLe key x l).Pairwise (fun a b => key a ≤ key b) := by
  induction l with
  | nil => simp [insertLe]
  | cons y l ih =>
      by_cases hxy : key x ≤ key y
      · rw [insertLe, if_pos hxy]
        refine List.Pairwise.cons ?_ h
        intro b hb
        rcases List.mem_cons.mp hb with rfl | hb
        · exact hxy
        · exact le_trans hxy (List.rel_of_pairwise_cons h hb)
      · rw [insertLe, if_neg hxy]
        refine List.Pairwise.cons ?_ (ih h.of_cons)
        intro b hb
        rcases List.mem_cons.mp ((insertLe_perm key x l).mem_iff.mp hb) with rfl | hb
        · exact le_of_lt (lt_of_not_le hxy)
        · exact List.rel_of_pairwise_cons h hb

theorem sortLe_pairwise (l : List α) :
    (sortLe key l).Pairwise (fun a b => key a ≤ key b) := by
  induction l with
  | nil => simp [sortLe]
  | cons x l ih => exact insertLe_pairwise key x (sortLe key l) ih

theorem insertLe_filter_eq (x : α) (l : List α) (v : β) (hx : key x = v) :
    (insertLe key x l).filter (fun a => key a == v) =
      x :: l.filter (fun a => key a == v) := by
  induction l with
  | nil => rw [insertLe]; simp [List.filter_cons, hx]
  | cons y l ih =>
      by_cases hxy : key x ≤ key y
      · rw [insertLe, if_pos hxy, List.filter_cons, List.filter_cons]
        simp [hx]
      · have hy : (key y == v) = false := by
          refine beq_eq_false_iff_ne.mpr (ne_of_lt ?_)
          rw [← hx]; exact lt_of_not_le hxy
        rw [insertLe, if_neg hxy, List.filter_cons, hy, ih, List.filter_cons, hy]
        simp

theorem insertLe_filter_ne (x : α) (l : List α) (v : β) (hx : key x ≠ v) :
    (insertLe key x l).filter (fun a => key a == v) =
      l.filter (fun a => key a == v) := by
  induction l with
  | nil => rw [insertLe]; simp [List.filter_cons, beq_eq_false_iff_ne.mpr hx]
  | cons y l ih =>
      by_cases hxy : key x ≤ key y
      · rw [insertLe, if_pos hxy, List.filter_cons, beq_eq_false_iff_ne.mpr hx]
        simp
      · rw [insertLe, if_neg hxy, List.filter_cons, ih, List.filter_cons]

theorem sortLe_filter_stable (l : List α) (v : β) :
    (sortLe key l).filter (fun a => key a == v) =
      l.filter (fun a => key a == v) := by
  induction l with
  | nil => simp [sortLe]
  | cons x l ih =>
      by_cases hx : key x = v
      · rw [sortLe, insertLe_filter_eq key x _ v hx, ih, List.filter_cons,
          beq_iff_eq.mpr hx]
        simp
      · rw [sortLe, insertLe_filter_ne key x _ v hx, ih, List.filter_cons,
          beq_eq_false_iff_ne.mpr hx]
        simp

end SortLemmas

section GroupLemmas

variable {κ : Type _} [DecidableEq κ]

theorem bump_keys (k : κ) (m : List (κ × ℕ)) :
    (bump k m).map Prod.fst =
      if k ∈ m.map Prod.fst then m.map Prod.fst else m.map Prod.fst ++ [k] := by
  induction m with
  | nil => simp [bump]
  | cons e m ih =>
      by_cases h : e.1 = k
      · simp [bump, h]
      · have hne : k ≠ e.1 := fun hk => h hk.symm
        rw [bump, if_neg h, List.map_cons, ih, List.map_cons]
        by_cases hm : k ∈ m.map Prod.fst
        · rw [if_pos hm, if_pos (List.mem_cons_of_mem _ hm)]
        · rw [if_neg hm, if_neg (by simp [List.mem_cons, hne, hm])]
          simp

theorem bump_sum (k : κ) (m : List (κ × ℕ)) :
    ((bump k m).map Prod.snd).sum = (m.map Prod.snd).sum + 1 := by
  induction m with
  | nil => simp [bump]
  | cons e m ih =>
      by_cases h : e.1 = k
      · simp [bump, h]; ring
      · simp [bump, h, ih]; ring

theorem foldl_bump_sum (ks : List κ) (m : List (κ × ℕ)) :
    (((ks.foldl (fun m k => bump k m) m)).map Prod.snd).sum =
      (m.map Prod.snd).sum + ks.length := by
  induction ks generalizing m with
  | nil => simp
  | cons k ks ih =>
      rw [List.foldl_cons, ih, bump_sum]
      simp only [List.length_cons]
      omega

theorem foldl_bump_keys_mem (ks : List κ) (m : List (κ × ℕ)) (k' : κ) :
    k' ∈ ((ks.foldl (fun m k => bump k m) m)).map Prod.fst ↔
      k' ∈ m.map Prod.fst ∨ k' ∈ ks := by
  induction ks generalizing m with
  | nil => simp
  | cons k ks ih =>
      rw [List.foldl_cons, ih, bump_keys]
      by_cases h : k ∈ m.map Prod.fst
      · rw [if_pos h]
        constructor
        · rintro (hm | hk)
          · exact Or.inl hm
          · exact Or.inr (List.mem_cons_of_mem _ hk)
        · rintro (hm | hk)
          · exact Or.inl hm
          · rcases List.mem_cons.mp hk with rfl | hk
            · exact Or.inl h
            · exact Or.inr hk
      · rw [if_neg h]
        simp only [List.mem_append, List.mem_singleton, List.mem_cons]
        tauto

theorem foldl_bump_keys_nodup (ks : List κ) (m : List (κ × ℕ))
    (hm : (m.map Prod.fst).Nodup) :
    (((ks.foldl (fun m k => bump k m) m)).map Prod.fst).Nodup := by
  induction ks generalizing m with
  | nil => exact hm
  | cons k ks ih =>
      rw [List.foldl_cons]
      refine ih _ ?_
      rw [bump_keys]
      by_cases h : k ∈ m.map Prod.fst
      · rw [if_pos h]; exact hm
      · rw [if_neg h]
        refine List.nodup_append.mpr ⟨hm, List.nodup_singleton k, ?_⟩
        intro a ha hk
        have hak := List.mem_singleton.mp hk
        subst hak
        exact h ha

theorem groupCount_sum (ks : List κ) :
    ((groupCount ks).map Prod.snd).sum = ks.length := by
  simpa using foldl_bump_sum ks []

theorem groupCount_keys_mem (ks : List κ) (k' : κ) :
    k' ∈ (groupCount ks).map Prod.fst ↔ k' ∈ ks := by
  simpa using foldl_bump_keys_mem ks [] k'

theorem groupCount_keys_nodup (ks : List κ) :
    ((groupCount ks).map Prod.fst).Nodup := by
  simpa using foldl_bump_keys_nodup ks [] (by simp)

end GroupLemmas

theorem jsEntries_perm {κ : Type _} (isIdx : κ → Bool) (idxVal : κ → ℚ)
    (m : List (κ × ℕ)) :
    List.Perm (jsEntries isIdx idxVal m) m := by
  refine List.Perm.trans ?_ (List.filter_append_perm (fun e => isIdx e.1) m)
  exact (sortLe_perm _ _).append_right _

/-- The row-level survival predicate of the cleaning pass: the year field
converts to a truthy (non-`NaN`, non-zero) number. -/
def yearOk (r : RawRow) : Bool :=
  match jsNumber (r "Model Year") with
  | none => false
  | some q => q != 0

theorem truthyYear_toRecord (r : RawRow) :
    truthyYear (toRecord r).year = yearOk r := by
  unfold truthyYear toRecord yearOk jsNumOrNull
  cases jsNumber (r "Model Year") with
  | none => rfl
  | some q =>
      by_cases h : q = 0
      · simp [h]
      · simp [h]

theorem data_eq (raw : List RawRow) :
    data raw = (raw.filter yearOk).map toRecord := by
  unfold data
  rw [List.filter_map]
  congr 1
  exact List.filter_congr (fun r _ => truthyYear_toRecord r)

theorem mem_data_year (raw : List RawRow) (rec : Record)
    (h : rec ∈ data raw) : ∃ q : ℚ, rec.year = some q ∧ q ≠ 0 := by
  unfold data at h
  have hy : truthyYear rec.year = true := by
    have := List.of_mem_filter h
    simpa using this
  cases hq : rec.year with
  | none => rw [hq] at hy; exact absurd hy (by simp [truthyYear])
  | some q =>
      rw [hq] at hy
      exact ⟨q, rfl, by simpa [truthyYear] using hy⟩

theorem jsOr_ne_empty (v d : JSVal) (hd : d ≠ .str "") :
    jsOr v d ≠ .str "" := by
  unfold jsOr
  by_cases h : truthy v
  · rw [if_pos h]
    intro hv
    rw [hv] at h
    simp [truthy] at h
  · rw [if_neg h]
    exact hd

theorem yearMatches_iff (y n : Option ℚ) :
    yearMatches y n = true ↔ ∃ q : ℚ, n = some q ∧ y = some q := by
  cases y with
  | none => simp [yearMatches]
  | some a =>
      cases n with
      | none => simp [yearMatches]
      | some b =>
          simp only [yearMatches, beq_iff_eq]
          constructor
          · rintro rfl; exact ⟨_, rfl, rfl⟩
          · rintro ⟨q, hq, hy⟩
            injection hq with hq
            injection hy with hy
            rw [hy, hq]

/-- C1: the cleaning pass drops exactly the rows whose year field converts
to a falsy value (`NaN` from a non-numeric field, `0` from an empty one,
or a literal zero): the cleaned list is the order-preserving image of the
surviving rows (one record per surviving row, no deduplication), its
length is at most the raw length, and every cleaned record has a non-null
year. -/
theorem C1_clean_drops_exactly (raw : List RawRow) :
    data raw = (raw.filter yearOk).map toRecord
    ∧ (data raw).length ≤ raw.length
    ∧ ((data raw).all (fun rec => rec.year != none)) = true := by
  refine ⟨data_eq raw, ?_, ?_⟩
  · calc (data raw).length ≤ (raw.map toRecord).length :=
          (List.filter_sublist _).length_le
      _ = raw.length := List.length_map _ _
  · rw [List.all_eq_true]
    intro rec hrec
    obtain ⟨q, hq, -⟩ := mem_data_year raw rec hrec
    simp [hq]

/-- Raw row with a valid year and a negative electric range: survives
cleaning with `battery_capacity_kwh = -5`. -/
def rowNegRange : RawRow := fun k =>
  if k = "Model Year" then .num 2020
  else if k = "State" then .str "WA"
  else if k = "Electric Range" then .num (-5)
  else .undefV

/-- C2 counterexample: a cleaned record can carry a negative range, since
`Number(x) || 0` only replaces `NaN` and `0`, not negative numbers. -/
theorem C2_counterexample :
    (data [rowNegRange]).map Record.battery_capacity_kwh = [(-5 : ℚ)]
    ∧ ¬ ((0 : ℚ) ≤ (-5 : ℚ)) := by
  constructor
  · decide
  · norm_num

/-- C2 as amended: the range field defaults to `0` when the source field
is unparseable (NaN), and the state/make/model/type fields of a cleaned
record are never the empty string (empty sources get the documented
defaults) — but the range is not guaranteed non-negative. -/
theorem C2_field_defaults (raw : List RawRow) :
    ((data raw).all (fun rec =>
        rec.state != JSVal.str "" && rec.make != JSVal.str "" &&
        rec.model != JSVal.str "" && rec.vehicle_type != JSVal.str "")) = true
    ∧ ∀ r : RawRow, jsNumber (r "Electric Range") = none →
        (toRecord r).battery_capacity_kwh = 0 := by
  constructor
  · rw [List.all_eq_true]
    intro rec hrec
    rw [data_eq] at hrec
    obtain ⟨r, -, rfl⟩ := List.mem_map.mp hrec
    have h1 := jsOr_ne_empty (r "State") (.str "Unknown") (by simp)
    have h2 := jsOr_ne_empty (r "Make") (.str "Unknown") (by simp)
    have h3 := jsOr_ne_empty (r "Model") (.str "Unknown") (by simp)
    have h4 := jsOr_ne_empty (r "Electric Vehicle Type") (.str "Other") (by simp)
    simp [toRecord, h1, h2, h3, h4]
  · intro r h
    simp [toRecord, jsNumOr, h]

/-- All-`undefined` row: unparseable everywhere. -/
def rowUndef : RawRow := fun _ => .undefV

/-- Witness for C2: the defaults fire on concrete rows. -/
theorem C2_field_defaults_witness :
    ((data [rowNegRange]).all (fun rec =>
        rec.state != JSVal.str "" && rec.make != JSVal.str "" &&
        rec.model != JSVal.str "" && rec.vehicle_type != JSVal.str "")) = true
    ∧ (toRecord rowUndef).battery_capacity_kwh = 0 :=
  ⟨(C2_field_defaults [rowNegRange]).1, (C2_field_defaults []).2 rowUndef rfl⟩

/-- Raw row whose model year is the non-integral number 2020.5 (the CSV
parser's dynamic typing converts `"2020.5"` to a number). -/
def rowFracYear : RawRow := fun k =>
  if k = "Model Year" then .num ((4041 : ℚ) / 2)
  else if k = "State" then .str "WA"
  else .undefV

/-- C3 counterexample: cleaning converts the year with `Number`, not
integer parsing, so a fractional year survives as a non-integer. -/
theorem C3_counterexample :
    (data [rowFracYear]).map Record.year = [some ((4041 : ℚ) / 2)]
    ∧ ¬ ∃ n : ℤ, ((4041 : ℚ) / 2) = (n : ℚ) := by
  constructor
  · have hq : ((4041 : ℚ) / 2) ≠ 0 := by norm_num
    simp [data, rowFracYear, toRecord, jsNumOrNull, jsNumber, truthyYear, hq]
  · rintro ⟨n, hn⟩
    have h2 : (4041 : ℚ) = 2 * (n : ℚ) := by field_simp at hn; linarith
    have h3 : (4041 : ℤ) = 2 * n := by exact_mod_cast h2
    omega

/-- C3 as amended: every cleaned record's year is a non-null, truthy
(non-zero) number — but not necessarily an integer. -/
theorem C3_year_nonnull (raw : List RawRow) :
    ((data raw).all (fun rec => rec.year != none && truthyYear rec.year)) = true := by
  rw [List.all_eq_true]
  intro rec hrec
  obtain ⟨q, hq, hq0⟩ := mem_data_year raw rec hrec
  simp [hq, truthyYear, hq0]

/-- C4: the filter keeps a record iff (year is `"All"` or the record's
year strictly equals the numeric conversion of the selected year) and
(state is `"All"` or the record's state strictly equals the selected
state); the empty result is an ordinary value. -/
theorem C4_filter_iff (d : List Record) (filters : Filters) (rec : Record) :
    filteredData d filters = d.filter (matchesFilters filters)
    ∧ (matchesFilters filters rec = true ↔
        ((filters.year = "All"
            ∨ ∃ q : ℚ, jsStringToNumber filters.year = some q ∧ rec.year = some q)
         ∧ (filters.state = "All" ∨ rec.state = JSVal.str filters.state)))
    ∧ filteredData [] filters = [] := by
  refine ⟨rfl, ?_, rfl⟩
  unfold matchesFilters
  rw [Bool.and_eq_true, Bool.or_eq_true, Bool.or_eq_true]
  rw [yearMatches_iff]
  simp [beq_iff_eq]

/-- C7: the average-range KPI is the range sum divided by
`max 1 count`, rounded to two decimals; the divisor is never zero and the
empty filtered set yields exactly 0. -/
theorem C7_avgRange (fd : List Record) :
    avgBattery fd = roundTo2 (sumRange fd / ((max 1 fd.length : ℕ) : ℚ))
    ∧ ((max 1 fd.length : ℕ) : ℚ) ≠ 0
    ∧ avgBattery [] = 0 := by
  refine ⟨rfl, ?_, ?_⟩
  · rw [Nat.cast_ne_zero]
    omega
  · have h0 : sumRange [] = 0 := rfl
    unfold avgBattery
    rw [h0]
    have h1 : ((0 : ℚ) / ((max 1 ([] : List Record).length : ℕ) : ℚ)) * 100 = 0 := by
      norm_num
    rw [h1]
    have h2 : jsRound 0 = 0 := by
      unfold jsRound
      rw [Int.floor_eq_zero_iff]
      constructor <;> norm_num
    rw [h2]
    norm_num

/-- C8: filtering with the all-pass selection is the identity. -/
theorem C8_filter_all_identity (d : List Record) :
    filteredData d { year := "All", state := "All" } = d := by
  refine List.filter_eq_self.mpr ?_
  intro rec _
  simp [matchesFilters]

/-- C9: the dropdown option lists are a function of the cleaned dataset
only: runs over equal cleaned datasets with arbitrary (possibly different)
filter selections produce identical option lists. -/
theorem C9_options_from_clean_only (raw raw' : List RawRow) (f f' : Filters)
    (h : data raw = data raw') :
    (appView raw f).yearsOpts = (appView raw' f').yearsOpts
    ∧ (appView raw f).statesOpts = (appView raw' f').statesOpts := by
  constructor <;> simp [appView, h]

/-- Witness for C9 at concrete inputs (same rows, different selections). -/
theorem C9_options_witness :
    (appView [rowNegRange] { year := "All", state := "All" }).yearsOpts =
      (appView [rowNegRange] { year := "2020", state := "WA" }).yearsOpts
    ∧ (appView [rowNegRange] { year := "All", state := "All" }).statesOpts =
      (appView [rowNegRange] { year := "2020", state := "WA" }).statesOpts :=
  C9_options_from_clean_only [rowNegRange] [rowNegRange] _ _ rfl

/-- C10: the filtered list is an order-preserving subsequence of its
input, and every filtered record is an element of the input. -/
theorem C10_filter_sublist (d : List Record) (filters : Filters) :
    (filteredData d filters).Sublist d
    ∧ ((filteredData d filters).all (fun rec => decide (rec ∈ d))) = true := by
  refine ⟨List.filter_sublist d, ?_⟩
  rw [List.all_eq_true]
  intro rec hrec
  simpa using List.mem_of_mem_filter hrec

/-- C6 as amended: `topStates` has length at most 10 and is sorted
descending by count; on equal counts the order is the (stable-sort
preserved) enumeration order of the grouping object — array-index-like
state keys first in ascending numeric order, then the remaining states in
first-encountered order — not plain first-encountered order. -/
theorem C6_topStates_sorted (fd : List Record) :
    topStates fd = (sortLe negCount (stateEntries fd)).take 10
    ∧ (topStates fd).length ≤ 10
    ∧ (topStates fd).Pairwise (fun a b => b.count ≤ a.count)
    ∧ ∀ c : ℕ, (sortLe negCount (stateEntries fd)).filter (fun e => e.count == c)
        = (stateEntries fd).filter (fun e => e.count == c) := by
  refine ⟨rfl, ?_, ?_, ?_⟩
  · exact List.length_take_le 10 (sortLe negCount (stateEntries fd))
  · have hp := sortLe_pairwise negCount (stateEntries fd)
    have hp2 : (sortLe negCount (stateEntries fd)).Pairwise
        (fun a b => b.count ≤ a.count) := by
      refine hp.imp ?_
      intro a b h
      have : -(a.count : ℤ) ≤ -(b.count : ℤ) := h
      omega
    exact hp2.sublist (List.take_sublist _ _)
  · intro c
    have hst := sortLe_filter_stable negCount (stateEntries fd) (-(c : ℤ))
    have hpred : ∀ e : StateCount, (negCount e == -(c : ℤ)) = (e.count == c) := by
      intro e
      by_cases h : e.count = c
      · simp [negCount, h]
      · have : ¬ (-(e.count : ℤ) = -(c : ℤ)) := by omega
        simp [negCount, h, this]
    simp only [hpred] at hst
    exact hst

/-- Cleaned record with state `"WA"`. -/
def recWA : Record :=
  ⟨some 2020, .str "WA", .str "Tesla", .str "Model Y", .str "BEV", 0⟩

/-- Cleaned record whose state cell was the number 42 (dynamic typing of a
numeric CSV cell); its property key `"42"` is an array-index key. -/
def rec42 : Record :=
  ⟨some 2020, .num 42, .str "Kia", .str "EV6", .str "BEV", 0⟩

/-- C6 counterexample: with equal counts, the state first encountered
(`"WA"`) does NOT come first: the object enumeration puts the
array-index-like key `"42"` in front. -/
theorem C6_counterexample :
    (topStates [recWA, rec42]).map StateCount.state = ["42", "WA"]
    ∧ (topStates [recWA, rec42]).map StateCount.count = [1, 1]
    ∧ dedupFirst ([recWA, rec42].map (fun d => toKey d.state)) = ["WA", "42"] := by
  refine ⟨?_, ?_, ?_⟩ <;> decide

theorem yearly_years_perm (fd : List Record) :
    List.Perm ((yearly fd).map YearCount.year)
      ((groupCount (fd.map Record.year)).map Prod.fst) := by
  have h1 := (sortLe_perm (fun e => yearKey e.year) (yearEntries fd)).map
    YearCount.year
  have h2 := (jsEntries_perm isYearIdxKey yearKey
      (groupCount (fd.map Record.year))).map Prod.fst
  refine List.Perm.trans ?_ h2
  refine List.Perm.trans h1 ?_
  rw [yearEntries, List.map_map]
  exact List.Perm.refl _

theorem yearly_counts_perm (fd : List Record) :
    List.Perm ((yearly fd).map YearCount.count)
      ((groupCount (fd.map Record.year)).map Prod.snd) := by
  have h1 := (sortLe_perm (fun e => yearKey e.year) (yearEntries fd)).map
    YearCount.count
  have h2 := (jsEntries_perm isYearIdxKey yearKey
      (groupCount (fd.map Record.year))).map Prod.snd
  refine List.Perm.trans ?_ h2
  refine List.Perm.trans h1 ?_
  rw [yearEntries, List.map_map]
  exact List.Perm.refl _

theorem yearly_props (fd : List Record)
    (hfd : ∀ rec ∈ fd, ∃ q : ℚ, rec.year = some q ∧ q ≠ 0) :
    ((yearly fd).map YearCount.year).Nodup
    ∧ (yearly fd).Pairwise (fun a b => yearKey a.year < yearKey b.year)
    ∧ (∀ q : ℚ, (∃ e ∈ yearly fd, e.year = some q) ↔ ∃ rec ∈ fd, rec.year = some q)
    ∧ ((yearly fd).map YearCount.count).sum = fd.length := by
  have hnd : ((yearly fd).map YearCount.year).Nodup :=
    (yearly_years_perm fd).nodup_iff.mpr (groupCount_keys_nodup _)
  refine ⟨hnd, ?_, ?_, ?_⟩
  · have hle := sortLe_pairwise (fun e => yearKey e.year) (yearEntries fd)
    have hne : (yearly fd).Pairwise (fun a b => a.year ≠ b.year) :=
      List.pairwise_map.mp hnd
    have hsome : ∀ e ∈ yearly fd, ∃ q : ℚ, e.year = some q := by
      intro e he
      have hmem : e.year ∈ (yearly fd).map YearCount.year :=
        List.mem_map_of_mem _ he
      have h2 : e.year ∈ fd.map Record.year := by
        have h3 := (yearly_years_perm fd).mem_iff.mp hmem
        rwa [groupCount_keys_mem] at h3
      obtain ⟨rec, hrec, hy⟩ := List.mem_map.mp h2
      obtain ⟨q, hq, -⟩ := hfd rec hrec
      exact ⟨q, by rw [← hy, hq]⟩
    refine (hle.and hne).imp_of_mem ?_
    intro a b ha hb hab
    obtain ⟨qa, hqa⟩ := hsome a ha
    obtain ⟨qb, hqb⟩ := hsome b hb
    obtain ⟨h1, h2⟩ := hab
    have hqne : qa ≠ qb := by
      intro h
      exact h2 (by rw [hqa, hqb, h])
    have h1' : qa ≤ qb := by simpa [yearKey, hqa, hqb] using h1
    have : qa < qb := lt_of_le_of_ne h1' hqne
    simpa [yearKey, hqa, hqb] using this
  · intro q
    rw [show (∃ e ∈ yearly fd, e.year = some q) ↔
        some q ∈ (yearly fd).map YearCount.year from (List.mem_map).symm]
    rw [(yearly_years_perm fd).mem_iff, groupCount_keys_mem, List.mem_map]
  · rw [(yearly_counts_perm fd).sum_eq, groupCount_sum, List.length_map]

/-- C5: over any pipeline run (cleaned then filtered records), the
`yearly` aggregate is strictly ascending by year (hence has no duplicate
year keys), contains exactly the years present in the filtered set, and
its counts sum to the filtered set's size. -/
theorem C5_yearly_properties (raw : List RawRow) (filters : Filters) :
    ((yearly (filteredData (data raw) filters)).map YearCount.year).Nodup
    ∧ (yearly (filteredData (data raw) filters)).Pairwise
        (fun a b => yearKey a.year < yearKey b.year)
    ∧ (∀ q : ℚ, (∃ e ∈ yearly (filteredData (data raw) filters), e.year = some q)
        ↔ ∃ rec ∈ filteredData (data raw) filters, rec.year = some q)
    ∧ ((yearly (filteredData (data raw) filters)).map YearCount.count).sum
        = (filteredData (data raw) filters).length := by
  refine yearly_props (filteredData (data raw) filters) ?_
  intro rec hrec
  exact mem_data_year raw rec (List.mem_of_mem_filter hrec)
